import Mathlib

/-!
Shallow embedding of `src/bots_DB_management.py` (MultiBOT-with-ORCH).

The program is a Streamlit admin console over a SQLite database with three
tables: `Bots`, `KnowledgeBase` and the join table `BotKnowledgeLink`.
We embed the data-access operations as pure functions over an explicit
database state.  SQLite transaction semantics are modelled by keeping the
committed state explicit: every statement of an operation runs on a working
copy, and only `conn.commit()` publishes the working copy as the new
committed state; any abort (explicit rollback, or an exception escaping
before `commit`, after which the uncommitted work is discarded when the
connection is closed or garbage collected) leaves the committed state as it
was.  Failures of individual SQL statements are injected through explicit
failure-point parameters, one per operation, mirroring where a
`sqlite3.Error` can be raised.

Python-side observables that the claims mention are carried in the result
of each operation:
  * `outcome`  — `ok`, `typedError` (exception caught and reported with
    `st.error`, i.e. a typed error surfaced at the operation boundary), or
    `raised` (exception propagates out of the function);
  * `connClosed` — whether the function's `sqlite3` connection is closed on
    this path (a `finally: conn.close()` or falling off the end);
  * `cacheCleared` — whether `st.cache_data.clear()` runs on this path.
-/

/-- A SQLite value as it appears in a cell or a query parameter. -/
inductive Val where
  | int (n : ℤ)
  | str (s : String)
  | null
deriving DecidableEq, Repr

/-- Equality test used by `WHERE col = ?`: values of different storage
classes are unequal and `NULL` matches nothing.  (SQLite's INTEGER
affinity would additionally convert a numeric-looking text parameter
before comparing; the comparisons the claims exercise only ever pair an
integer key with an integer parameter or with non-numeric text such as a
bot display name, where SQLite also yields inequality, so the conversion
is not modelled.) -/
def valEq : Val → Val → Bool
  | .int a, .int b => a == b
  | .str a, .str b => a == b
  | _, _ => false

/-- A row of the `Bots` table: its integer primary key `Bot_ID` and its
unique display name `Botperson_Name` (the two columns the data-access
layer matches on; the remaining descriptive columns play no part in the
delete/link logic). -/
structure BotRow where
  bot_ID : ℤ
  botperson_Name : String
deriving DecidableEq, Repr

/-- A row of the `KnowledgeBase` table: integer primary key `ID` plus its
`Content` text. -/
structure KBRow where
  id : ℤ
  content : String
deriving DecidableEq, Repr

/-- A row of the join table `BotKnowledgeLink`: the pair of foreign keys. -/
structure LinkRow where
  bot_ID : ℤ
  knowledgeBase_ID : ℤ
deriving DecidableEq, Repr

/-- The database state: the three tables, each a list of rows in storage
order. -/
structure DB where
  bots : List BotRow
  knowledgeBase : List KBRow
  links : List LinkRow
deriving DecidableEq, Repr

/-- How a public operation ends on the Python side. -/
inductive Outcome where
  | ok
  | typedError
  | raised
deriving DecidableEq, Repr

/-- Result of one data-access operation: the committed database state it
leaves behind plus the Python-side observables. -/
structure OpResult where
  db : DB
  outcome : Outcome
  connClosed : Bool
  cacheCleared : Bool
deriving DecidableEq, Repr

/-- The value of the named column of a `Bots` row, as seen by
`DELETE FROM Bots WHERE {identifier_column} = ?`. -/
def botCol (c : String) (r : BotRow) : Val :=
  if c = "Bot_ID" then .int r.bot_ID
  else if c = "Botperson_Name" then .str r.botperson_Name
  else .null

/-- The value of the named column of a `KnowledgeBase` row. -/
def kbCol (c : String) (r : KBRow) : Val :=
  if c = "ID" then .int r.id
  else if c = "Content" then .str r.content
  else .null

/-- The value of the named column of a `BotKnowledgeLink` row. -/
def linkCol (c : String) (r : LinkRow) : Val :=
  if c = "Bot_ID" then .int r.bot_ID
  else if c = "KnowledgeBase_ID" then .int r.knowledgeBase_ID
  else .null

/-- `DELETE FROM {table_name} WHERE {identifier_column} = ?`: removes from
the named table every row whose named column equals the identifier. -/
def deleteFrom (table idCol : String) (identifier : Val) (db : DB) : DB :=
  if table = "Bots" then
    { db with bots := db.bots.filter (fun r => !valEq (botCol idCol r) identifier) }
  else if table = "KnowledgeBase" then
    { db with knowledgeBase := db.knowledgeBase.filter (fun r => !valEq (kbCol idCol r) identifier) }
  else if table = "BotKnowledgeLink" then
    { db with links := db.links.filter (fun r => !valEq (linkCol idCol r) identifier) }
  else db

/-- Which statement of `delete_record` the injected `sqlite3.Error` hits. -/
inductive FailPoint where
  | noFail
  | atLinkDelete
  | atParentDelete
deriving DecidableEq, Repr

/-- `delete_record(identifier, table_name, identifier_column)`
(source lines 55–89): `BEGIN`; if the table is `Bots`, delete the
`BotKnowledgeLink` rows with `Bot_ID = identifier`; if it is
`KnowledgeBase`, delete the link rows with `KnowledgeBase_ID = identifier`;
then delete from the named table the rows whose `identifier_column` equals
the identifier; `commit`.  Any `sqlite3` error rolls the transaction back
first, but the reporting call `st.error("…", e)` then passes two positional
arguments to an API whose `icon` parameter is keyword-only, so the handler
itself raises `TypeError` and the failure propagates out of the function
(`raised`), not as a typed error; `finally` still closes the connection.
No cache invalidation appears anywhere in this function. -/
def delete_record (identifier : Val) (table idCol : String) (fp : FailPoint)
    (db : DB) : OpResult :=
  if fp = .atLinkDelete then
    { db := db, outcome := .raised, connClosed := true, cacheCleared := false }
  else
    let w1 : DB :=
      if table = "Bots" then
        { db with links := db.links.filter (fun l => !valEq (.int l.bot_ID) identifier) }
      else if table = "KnowledgeBase" then
        { db with links := db.links.filter (fun l => !valEq (.int l.knowledgeBase_ID) identifier) }
      else db
    if fp = .atParentDelete then
      { db := db, outcome := .raised, connClosed := true, cacheCleared := false }
    else
      { db := deleteFrom table idCol identifier w1, outcome := .ok,
        connClosed := true, cacheCleared := false }

/-- Rows handed to `add_record` / read back by `load_data`, tagged with the
table they belong to (`data.to_sql(table_name, ...)` appends them to that
table). -/
inductive TableData where
  | botsD (rs : List BotRow)
  | kbD (rs : List KBRow)
  | linksD (rs : List LinkRow)
deriving DecidableEq, Repr

/-- Append rows to the table they are tagged with (`to_sql(...,
if_exists='append')`). -/
def insertRows (rows : TableData) (db : DB) : DB :=
  match rows with
  | .botsD rs => { db with bots := db.bots ++ rs }
  | .kbD rs => { db with knowledgeBase := db.knowledgeBase ++ rs }
  | .linksD rs => { db with links := db.links ++ rs }

/-- `add_record(data, table_name)` (source lines 32–52): appends the rows;
`sqlite3.IntegrityError`, `sqlite3.DatabaseError` and any other exception
are each caught, but the reporting calls
(`st.error("Integrity error:", e)` etc.) pass two positional arguments to
the keyword-only-`icon` API and themselves raise `TypeError`, so the
failure propagates out of the function (`raised`); `finally` still closes
the connection and clears the read cache with `st.cache_data.clear()`. -/
def add_record (rows : TableData) (fail : Bool) (db : DB) : OpResult :=
  if fail then
    { db := db, outcome := .raised, connClosed := true, cacheCleared := true }
  else
    { db := insertRows rows db, outcome := .ok, connClosed := true, cacheCleared := true }

/-- `add_bot_and_get_id(data)` (source lines 157–171): inserts one `Bots`
row built from the form data (the form never supplies `Bot_ID`, so SQLite
assigns the next rowid, one more than the current maximum, or 1 in an empty
table) and returns `cursor.lastrowid`; `sqlite3.Error` is caught and
reported (the function then returns `None`); `finally` closes the
connection and clears the read cache. -/
def add_bot_and_get_id (name : String) (fail : Bool) (db : DB) :
    OpResult × Option ℤ :=
  if fail then
    ({ db := db, outcome := .typedError, connClosed := true, cacheCleared := true }, none)
  else
    let newId : ℤ := (db.bots.map (·.bot_ID)).foldl max 0 + 1
    ({ db := insertRows (.botsD [⟨newId, name⟩]) db, outcome := .ok,
       connClosed := true, cacheCleared := true }, some newId)

/-- Does the working state already hold a `BotKnowledgeLink` row for this
(bot, knowledge) pair?  Embeds the existence check
`SELECT * FROM BotKnowledgeLink WHERE Bot_ID=? AND KnowledgeBase_ID=?`. -/
def pairPresent (db : DB) (b k : ℤ) : Bool :=
  db.links.any (fun l => l.bot_ID == b && l.knowledgeBase_ID == k)

/-- `INSERT INTO BotKnowledgeLink (Bot_ID, KnowledgeBase_ID) VALUES (?, ?)`. -/
def addLink (b k : ℤ) (db : DB) : DB :=
  { db with links := db.links ++ [⟨b, k⟩] }

/-- One iteration of the loop of `link_bot_to_knowledgebase`: insert the
link only when the pair is absent. -/
def linkStep (b : ℤ) (db : DB) (k : ℤ) : DB :=
  if pairPresent db b k then db else addLink b k db

/-- `link_bot_to_knowledgebase(bot_id, kb_ids)` (source lines 175–189):
inside `with conn:` (commit on normal exit, rollback on exception), for
each knowledge key check whether the (bot, knowledge) pair exists and
insert it only if absent.  A `sqlite3.Error` anywhere makes the context
manager roll the transaction back, is caught and reported with `st.error`,
and `finally` closes the connection; the committed state is then exactly
the state before the call.  No cache invalidation in this function. -/
def link_bot_to_knowledgebase (b : ℤ) (ks : List ℤ) (fail : Bool) (db : DB) :
    OpResult :=
  if fail then
    { db := db, outcome := .typedError, connClosed := true, cacheCleared := false }
  else
    { db := ks.foldl (linkStep b) db, outcome := .ok,
      connClosed := true, cacheCleared := false }

/-- Which statement of `update_bot_knowledge_links` the injected
`sqlite3.Error` hits: none, the initial `DELETE`, or the i-th `INSERT`
(0-based). -/
inductive UFail where
  | noFail
  | atDelete
  | atInsert (i : ℕ)
deriving DecidableEq, Repr

/-- The insert loop of `update_bot_knowledge_links`, run on the working
(uncommitted) state: inserts a link row per key, failing at the given
index when one is injected. -/
def insertLinks (b : ℤ) : List ℤ → Option ℕ → DB → Option DB
  | [], _, w => some w
  | _ :: _, some 0, _ => none
  | k :: ks, some (i + 1), w => insertLinks b ks (some i) (addLink b k w)
  | k :: ks, none, w => insertLinks b ks none (addLink b k w)

/-- `update_bot_knowledge_links(bot_id, kb_ids_selected)` (source lines
211–228): `DELETE FROM BotKnowledgeLink WHERE Bot_ID=?`, then one `INSERT`
per selected key, then `commit`, then `close`.  There is no
`try`/`except`/`finally` in this function: if the delete or any insert
raises, the exception propagates out of the function, the connection is
never closed on that path, and — because `conn.commit()` has not run — the
uncommitted delete and inserts are discarded, leaving the committed state
unchanged.  No cache invalidation in this function. -/
def update_bot_knowledge_links (b : ℤ) (ks : List ℤ) (uf : UFail) (db : DB) :
    OpResult :=
  match uf with
  | .atDelete =>
      { db := db, outcome := .raised, connClosed := false, cacheCleared := false }
  | .noFail =>
      let w : DB := { db with links := db.links.filter (fun l => !(l.bot_ID == b)) }
      match insertLinks b ks none w with
      | some w2 => { db := w2, outcome := .ok, connClosed := true, cacheCleared := false }
      | none => { db := db, outcome := .raised, connClosed := false, cacheCleared := false }
  | .atInsert i =>
      let w : DB := { db with links := db.links.filter (fun l => !(l.bot_ID == b)) }
      match insertLinks b ks (some i) w with
      | some w2 => { db := w2, outcome := .ok, connClosed := true, cacheCleared := false }
      | none => { db := db, outcome := .raised, connClosed := false, cacheCleared := false }

/-- A Python value as it sits in the `data` dict handed to
`update_record`: `None`, a pandas missing value (`NaN`/`NA`), or a string
(the Streamlit form widgets produce strings). -/
inductive PyVal where
  | pnone
  | nan
  | pstr (s : String)
deriving DecidableEq, Repr

/-- `pd.notna`: false exactly on `None` and `NaN`/`NA`. -/
def pdNotna : PyVal → Bool
  | .pnone => false
  | .nan => false
  | .pstr _ => true

/-- The dict comprehension of `update_record` (source line 104):
`v if pd.notna(v) and v != "None" else None`. -/
def processVal (v : PyVal) : PyVal :=
  if pdNotna v && !(v == .pstr "None") then v else .pnone

/-- `processed_data`: the normalization applied to every supplied column
value before it is bound into the `UPDATE` statement. -/
def processed_data (data : List (String × PyVal)) : List (String × PyVal) :=
  data.map (fun kv => (kv.1, processVal kv.2))

/-- How a bound Python value is stored by SQLite: `None` (and the
normalized missing values) become SQL `NULL`, strings are stored as
given. -/
def toSQL : PyVal → Val
  | .pnone => .null
  | .nan => .null
  | .pstr s => .str s

/-- A generic table row, as `update_record` sees it: column name to value.
`update_record` is table-generic in the source (the table and column names
are interpolated into the SQL), so it is embedded over this generic row
type. -/
abbrev GRow : Type := List (String × Val)

/-- The value of a column of a generic row (`NULL` when absent). -/
def getCol (r : GRow) (c : String) : Val := (r.lookup c).getD .null

/-- `SET c = v` on one row: every cell of column `c` receives `v`. -/
def setCol (r : GRow) (c : String) (v : Val) : GRow :=
  r.map (fun kv => if kv.1 = c then (kv.1, v) else kv)

/-- The effect of the `UPDATE ... SET col1 = ?, col2 = ?, ...` column list
on one matched row: each supplied column is set to its normalized, bound
value. -/
def applyUpdate (data : List (String × PyVal)) (r : GRow) : GRow :=
  (processed_data data).foldl (fun row kv => setCol row kv.1 (toSQL kv.2)) r

/-- `update_record(record_id, data, table_name, column_name)` (source
lines 92–116): builds `processed_data` from `data`, then runs
`UPDATE {table} SET ... WHERE {column_name} = ?` and commits.  Rows whose
key column equals `record_id` receive the normalized values; other rows
are untouched.  `sqlite3.DatabaseError` and any other exception are
caught, but the reporting call `st.error("Database error:", e)` passes two
positional arguments to the keyword-only-`icon` API and itself raises
`TypeError`, so the failure propagates out of the function (`raised`);
`finally` still closes the connection and clears the read cache. -/
def update_record (record_id : Val) (data : List (String × PyVal))
    (keyCol : String) (fail : Bool) (t : List GRow) :
    List GRow × Outcome × Bool × Bool :=
  if fail then
    (t, .raised, true, true)
  else
    (t.map (fun r => if valEq (getCol r keyCol) record_id then applyUpdate data r else r),
     .ok, true, true)

/-- The Update Record form handler (source line 356): before calling
`update_record` it replaces every empty-string field with `None`:
`{k: v if v != "" else None for k, v in updated_data.items()}`. -/
def form_normalize (v : String) : PyVal :=
  if v = "" then .pnone else .pstr v

/-- The process-wide `st.cache_data` memoization of `load_data`, keyed by
table name: for each table, either no cached entry or a cached snapshot of
that table's rows.  (The 60-second TTL is modelled by considering reads
that fall inside the staleness window, i.e. the entry is present until
cleared.) -/
structure Cache where
  botsC : Option (List BotRow)
  kbC : Option (List KBRow)
  linksC : Option (List LinkRow)
deriving DecidableEq, Repr

/-- The cleared cache (`st.cache_data.clear()` drops every entry). -/
def emptyCache : Cache := ⟨none, none, none⟩

/-- Database plus read cache: the state the Streamlit script operates on. -/
structure AppState where
  db : DB
  cache : Cache
deriving DecidableEq, Repr

/-- `load_data(table_name)` (source lines 21–27, under
`@st.cache_data(ttl=60)`): a cached entry for the table is returned as is;
otherwise `SELECT * FROM {table_name}` reads the current table and the
result is memoized. -/
def load_data (table : String) (s : AppState) : TableData × AppState :=
  if table = "Bots" then
    match s.cache.botsC with
    | some rs => (.botsD rs, s)
    | none => (.botsD s.db.bots, { s with cache := { s.cache with botsC := some s.db.bots } })
  else if table = "KnowledgeBase" then
    match s.cache.kbC with
    | some rs => (.kbD rs, s)
    | none => (.kbD s.db.knowledgeBase,
        { s with cache := { s.cache with kbC := some s.db.knowledgeBase } })
  else
    match s.cache.linksC with
    | some rs => (.linksD rs, s)
    | none => (.linksD s.db.links,
        { s with cache := { s.cache with linksC := some s.db.links } })

/-- Lift an operation result to the app state: the committed database is
replaced, and the cache is dropped exactly when the operation ran
`st.cache_data.clear()`. -/
def applyResult (r : OpResult) (s : AppState) : AppState :=
  { db := r.db, cache := if r.cacheCleared then emptyCache else s.cache }

/-- Referential integrity of the join table: every `BotKnowledgeLink` row
references an existing `Bots` row and an existing `KnowledgeBase` row. -/
def noDangling (db : DB) : Bool :=
  db.links.all (fun l =>
    db.bots.any (fun b => b.bot_ID == l.bot_ID) &&
    db.knowledgeBase.any (fun k => k.id == l.knowledgeBase_ID))

/-- Number of `BotKnowledgeLink` rows for one (bot, knowledge) pair. -/
def countPair (db : DB) (b k : ℤ) : ℕ :=
  (db.links.filter (fun l => l.bot_ID == b && l.knowledgeBase_ID == k)).length

/-- One invocation of a repository / synchronizer operation, with its
injected-failure parameter. -/
inductive Op where
  | del (identifier : Val) (table idCol : String) (fp : FailPoint)
  | linkAbsent (b : ℤ) (ks : List ℤ) (fail : Bool)
  | replace (b : ℤ) (ks : List ℤ) (uf : UFail)
  | insertRs (rows : TableData) (fail : Bool)
  | insertBot (name : String) (fail : Bool)
deriving DecidableEq, Repr

/-- The committed database state an operation leaves behind. -/
def applyOp : Op → DB → DB
  | .del v t c fp, db => (delete_record v t c fp db).db
  | .linkAbsent b ks f, db => (link_bot_to_knowledgebase b ks f db).db
  | .replace b ks uf, db => (update_bot_knowledge_links b ks uf db).db
  | .insertRs rows f, db => (add_record rows f db).db
  | .insertBot name f, db => ((add_bot_and_get_id name f db).1).db

/-- Side conditions under which one operation respects referential
integrity (the conditions the UI call sites are meant to establish): a
`Bots` / `KnowledgeBase` delete is keyed by that table's integer ID column
(so the link cleanup and the parent delete select the same entity), link
creation uses a bot key present in `Bots` and knowledge keys present in
`KnowledgeBase`, and raw row insertion does not target the join table. -/
def safeOp (db : DB) : Op → Bool
  | .del _ t c _ =>
      (t != "Bots" || c == "Bot_ID") && (t != "KnowledgeBase" || c == "ID")
  | .linkAbsent b ks _ =>
      db.bots.any (fun r => r.bot_ID == b) &&
        ks.all (fun k => db.knowledgeBase.any (fun r => r.id == k))
  | .replace b ks _ =>
      db.bots.any (fun r => r.bot_ID == b) &&
        ks.all (fun k => db.knowledgeBase.any (fun r => r.id == k))
  | .insertRs rows _ =>
      match rows with
      | .linksD _ => false
      | _ => true
  | .insertBot _ _ => true

/-- Run a sequence of operations. -/
def runOps (db : DB) : List Op → DB
  | [] => db
  | op :: ops => runOps (applyOp op db) ops

/-- Every operation of the sequence satisfies its side condition in the
state in which it executes. -/
def safeRun (db : DB) : List Op → Bool
  | [] => true
  | op :: ops => safeOp db op && safeRun (applyOp op db) ops

/-- A small concrete store used by the concrete instances: one bot, two
knowledge entries, one link. -/
def dbEx : DB := ⟨[⟨1, "Aida"⟩], [⟨5, "doc"⟩, ⟨6, "faq"⟩], [⟨1, 5⟩]⟩

/-- The empty store. -/
def dbEmpty : DB := ⟨[], [], []⟩

/-- A store holding one knowledge entry and no bots. -/
def dbKBOnly : DB := ⟨[], [⟨5, "doc"⟩], []⟩

/-! ## Helper lemmas -/

lemma filter_filter_not {α : Type} (p : α → Bool) (l : List α) :
    (l.filter fun a => !p a).filter p = [] := by
  rw [List.filter_filter]
  exact List.filter_eq_nil_iff.mpr (fun a _ => by simp)

lemma filter_idem {α : Type} (p : α → Bool) (l : List α) :
    (l.filter p).filter p = l.filter p := by
  rw [List.filter_filter]
  simp

lemma insertLinks_none_eq (b : ℤ) (ks : List ℤ) (w : DB) :
    insertLinks b ks none w
      = some { w with links := w.links ++ ks.map fun k => ⟨b, k⟩ } := by
  induction ks generalizing w with
  | nil => simp [insertLinks]
  | cons k ks ih => simp [insertLinks, addLink, ih]

lemma insertLinks_lt (b : ℤ) (ks : List ℤ) (i : ℕ) (w : DB) (h : i < ks.length) :
    insertLinks b ks (some i) w = none := by
  induction ks generalizing i w with
  | nil => simp at h
  | cons k ks ih =>
      cases i with
      | zero => rfl
      | succ j => exact ih j _ (by simpa using h)

lemma insertLinks_ge (b : ℤ) (ks : List ℤ) (i : ℕ) (w : DB) (h : ks.length ≤ i) :
    insertLinks b ks (some i) w
      = some { w with links := w.links ++ ks.map fun k => ⟨b, k⟩ } := by
  induction ks generalizing i w with
  | nil => simp [insertLinks]
  | cons k ks ih =>
      cases i with
      | zero => simp at h
      | succ j => simp [insertLinks, addLink, ih j _ (by simpa using h)]

@[simp] lemma valEq_int_int (a b : ℤ) : valEq (.int a) (.int b) = (a == b) := rfl

lemma replace_lt_eq (db : DB) (b : ℤ) (ks : List ℤ) (i : ℕ) (h : i < ks.length) :
    update_bot_knowledge_links b ks (.atInsert i) db
      = { db := db, outcome := .raised, connClosed := false, cacheCleared := false } := by
  simp [update_bot_knowledge_links, insertLinks_lt b ks i _ h]

lemma replace_ge_eq (db : DB) (b : ℤ) (ks : List ℤ) (i : ℕ) (h : ks.length ≤ i) :
    update_bot_knowledge_links b ks (.atInsert i) db
      = { db := { db with links :=
                    db.links.filter (fun l => !(l.bot_ID == b)) ++ ks.map fun k => ⟨b, k⟩ },
          outcome := .ok, connClosed := true, cacheCleared := false } := by
  simp [update_bot_knowledge_links, insertLinks_ge b ks i _ h]

lemma replace_noFail_eq (db : DB) (b : ℤ) (ks : List ℤ) :
    update_bot_knowledge_links b ks .noFail db
      = { db := { db with links :=
                    db.links.filter (fun l => !(l.bot_ID == b)) ++ ks.map fun k => ⟨b, k⟩ },
          outcome := .ok, connClosed := true, cacheCleared := false } := by
  simp [update_bot_knowledge_links, insertLinks_none_eq]

lemma delete_bot_noFail_eq (db : DB) (v : Val) (c : String) :
    delete_record v "Bots" c .noFail db
      = { db := ⟨db.bots.filter (fun r => !valEq (botCol c r) v), db.knowledgeBase,
                 db.links.filter (fun l => !valEq (.int l.bot_ID) v)⟩,
          outcome := .ok, connClosed := true, cacheCleared := false } := by
  simp [delete_record, deleteFrom]

lemma delete_kb_noFail_eq (db : DB) (v : Val) (c : String) :
    delete_record v "KnowledgeBase" c .noFail db
      = { db := ⟨db.bots, db.knowledgeBase.filter (fun r => !valEq (kbCol c r) v),
                 db.links.filter (fun l => !valEq (.int l.knowledgeBase_ID) v)⟩,
          outcome := .ok, connClosed := true, cacheCleared := false } := by
  simp [delete_record, deleteFrom]

/-! ## Claims -/

/-- C1 (amended): keyed by the `Bot_ID` column, `delete_record` removes
every `BotKnowledgeLink` row of the bot and every `Bots` row with that key
in one transaction, and an injected failure at either delete step rolls
the whole transaction back, leaving the store untouched; the failure then
propagates out of the function as an exception (the `st.error` reporting
call itself raises), never as a partial write. -/
theorem c1_delete_bot_transactional (db : DB) (b : ℤ) :
    ((delete_record (.int b) "Bots" "Bot_ID" .noFail db).outcome = .ok
      ∧ (delete_record (.int b) "Bots" "Bot_ID" .noFail db).db.links.filter
          (fun l => l.bot_ID == b) = []
      ∧ (delete_record (.int b) "Bots" "Bot_ID" .noFail db).db.bots.filter
          (fun r => r.bot_ID == b) = [])
    ∧ ((delete_record (.int b) "Bots" "Bot_ID" .atLinkDelete db).db = db
      ∧ (delete_record (.int b) "Bots" "Bot_ID" .atLinkDelete db).outcome = .raised)
    ∧ ((delete_record (.int b) "Bots" "Bot_ID" .atParentDelete db).db = db
      ∧ (delete_record (.int b) "Bots" "Bot_ID" .atParentDelete db).outcome = .raised) := by
  refine ⟨⟨?_, ?_, ?_⟩, ⟨rfl, rfl⟩, ⟨rfl, rfl⟩⟩
  · rw [delete_bot_noFail_eq]
  · rw [delete_bot_noFail_eq]
    have h : (fun l : LinkRow => !valEq (.int l.bot_ID) (.int b))
        = fun l : LinkRow => !(l.bot_ID == b) := by
      funext l; simp [valEq]
    rw [show ((⟨db.bots.filter (fun r => !valEq (botCol "Bot_ID" r) (.int b)), db.knowledgeBase,
          db.links.filter (fun l => !valEq (.int l.bot_ID) (.int b))⟩ : DB)).links
        = db.links.filter (fun l => !valEq (.int l.bot_ID) (.int b)) from rfl, h]
    exact filter_filter_not (fun l : LinkRow => l.bot_ID == b) db.links
  · rw [delete_bot_noFail_eq]
    have h : (fun r : BotRow => !valEq (botCol "Bot_ID" r) (.int b))
        = fun r : BotRow => !(r.bot_ID == b) := by
      funext r; simp [valEq, botCol]
    rw [show ((⟨db.bots.filter (fun r => !valEq (botCol "Bot_ID" r) (.int b)), db.knowledgeBase,
          db.links.filter (fun l => !valEq (.int l.bot_ID) (.int b))⟩ : DB)).bots
        = db.bots.filter (fun r => !valEq (botCol "Bot_ID" r) (.int b)) from rfl, h]
    exact filter_filter_not (fun r : BotRow => r.bot_ID == b) db.bots

/-- C1 counterexample: as invoked by the UI, a `Bots` delete is keyed by
the display name (`identifier_column = "Botperson_Name"`), but the link
cleanup matches `Bot_ID` against that name, so the bot row is deleted
while all of its links survive. -/
theorem c1_counterexample :
    (delete_record (.str "Aida") "Bots" "Botperson_Name" .noFail dbEx).db.bots = []
    ∧ (delete_record (.str "Aida") "Bots" "Botperson_Name" .noFail dbEx).db.links
        = [⟨1, 5⟩]
    ∧ (delete_record (.str "Aida") "Bots" "Botperson_Name" .noFail dbEx).outcome
        = .ok := by
  decide

/-- C2: if `update_bot_knowledge_links` fails at the initial delete or at
the insertion of any of the new link rows, the committed store — in
particular the set of `BotKnowledgeLink` rows of that bot — is exactly
what it was before the call: the uncommitted delete and inserts are
discarded, so no partial replacement is ever published. -/
theorem c2_replaceLinks_rollback (db : DB) (b : ℤ) (ks : List ℤ) (i : ℕ) :
    (update_bot_knowledge_links b ks .atDelete db).db = db
    ∧ (i < ks.length → (update_bot_knowledge_links b ks (.atInsert i) db).db = db) := by
  refine ⟨rfl, fun h => ?_⟩
  simp [update_bot_knowledge_links, insertLinks_lt b ks i _ h]

/-- C2 witness: failing on the insertion of the second key leaves the one
existing link of the bot in place. -/
theorem c2_witness :
    (update_bot_knowledge_links 1 [5, 6] (.atInsert 1) dbEx).db = dbEx :=
  (c2_replaceLinks_rollback dbEx 1 [5, 6] 1).2 (by decide)

/-- C5: on success, `update_bot_knowledge_links b ks` first deletes every
existing link of `b` and then appends one fresh link per key of `ks`: the
links of `b` afterwards are exactly the pairs `(b, k)` for `k ∈ ks`, and
the whole link table is the delete-then-insert of the claim. -/
theorem c5_replaceLinks_success (db : DB) (b : ℤ) (ks : List ℤ) :
    (update_bot_knowledge_links b ks .noFail db).outcome = .ok
    ∧ (update_bot_knowledge_links b ks .noFail db).db.links
        = db.links.filter (fun l => !(l.bot_ID == b)) ++ ks.map (fun k => ⟨b, k⟩)
    ∧ (update_bot_knowledge_links b ks .noFail db).db.links.filter
        (fun l => l.bot_ID == b) = ks.map (fun k => ⟨b, k⟩) := by
  refine ⟨?_, ?_, ?_⟩
  · rw [replace_noFail_eq]
  · rw [replace_noFail_eq]
  · rw [replace_noFail_eq]
    rw [show ((({ db with links :=
            db.links.filter (fun l => !(l.bot_ID == b)) ++ ks.map fun k => ⟨b, k⟩ } : DB)).links)
        = db.links.filter (fun l => !(l.bot_ID == b)) ++ ks.map fun k => (⟨b, k⟩ : LinkRow)
      from rfl]
    rw [List.filter_append, filter_filter_not (fun l : LinkRow => l.bot_ID == b) db.links]
    rw [List.filter_eq_self.mpr]
    · simp
    · intro l hl
      rcases List.mem_map.mp hl with ⟨k, _, rfl⟩
      simp

lemma filter_keep_after_replace (db : DB) (b : ℤ) (ks : List ℤ) :
    (db.links.filter (fun l => !(l.bot_ID == b)) ++ ks.map fun k => (⟨b, k⟩ : LinkRow)).filter
        (fun l => !(l.bot_ID == b))
      = db.links.filter (fun l => !(l.bot_ID == b)) := by
  have hB : (ks.map fun k => (⟨b, k⟩ : LinkRow)).filter (fun l => !(l.bot_ID == b)) = [] :=
    List.filter_eq_nil_iff.mpr (by
      intro a ha
      rcases List.mem_map.mp ha with ⟨x, _, rfl⟩
      simp)
  rw [List.filter_append, filter_idem, hB, List.append_nil]

lemma replace_frame (db : DB) (b : ℤ) (ks : List ℤ) (uf : UFail) :
    (update_bot_knowledge_links b ks uf db).db.links.filter (fun l => !(l.bot_ID == b))
        = db.links.filter (fun l => !(l.bot_ID == b))
    ∧ (update_bot_knowledge_links b ks uf db).db.bots = db.bots
    ∧ (update_bot_knowledge_links b ks uf db).db.knowledgeBase = db.knowledgeBase := by
  cases uf with
  | atDelete => exact ⟨rfl, rfl, rfl⟩
  | noFail =>
      rw [replace_noFail_eq]
      exact ⟨filter_keep_after_replace db b ks, rfl, rfl⟩
  | atInsert i =>
      rcases Nat.lt_or_ge i ks.length with h | h
      · rw [replace_lt_eq db b ks i h]
        exact ⟨rfl, rfl, rfl⟩
      · rw [replace_ge_eq db b ks i h]
        exact ⟨filter_keep_after_replace db b ks, rfl, rfl⟩

lemma delete_bot_frame (db : DB) (b : ℤ) (c : String) (fp : FailPoint) :
    (delete_record (.int b) "Bots" c fp db).db.links.filter (fun l => !(l.bot_ID == b))
        = db.links.filter (fun l => !(l.bot_ID == b))
    ∧ (delete_record (.int b) "Bots" c fp db).db.knowledgeBase = db.knowledgeBase
    ∧ (delete_record (.int b) "Bots" c fp db).db.bots.filter
        (fun r => !valEq (botCol c r) (.int b))
      = db.bots.filter (fun r => !valEq (botCol c r) (.int b)) := by
  cases fp with
  | atLinkDelete => exact ⟨rfl, rfl, rfl⟩
  | atParentDelete => exact ⟨rfl, rfl, rfl⟩
  | noFail =>
      rw [delete_bot_noFail_eq]
      refine ⟨?_, rfl, ?_⟩
      · show (db.links.filter fun l => !valEq (.int l.bot_ID) (.int b)).filter
            (fun l => !(l.bot_ID == b)) = _
        simp only [valEq_int_int]
        exact filter_idem _ _
      · show (db.bots.filter fun r => !valEq (botCol c r) (.int b)).filter
            (fun r => !valEq (botCol c r) (.int b)) = _
        exact filter_idem _ _

lemma delete_kb_frame (db : DB) (k : ℤ) (c : String) (fp : FailPoint) :
    (delete_record (.int k) "KnowledgeBase" c fp db).db.links.filter
        (fun l => !(l.knowledgeBase_ID == k))
      = db.links.filter (fun l => !(l.knowledgeBase_ID == k))
    ∧ (delete_record (.int k) "KnowledgeBase" c fp db).db.bots = db.bots
    ∧ (delete_record (.int k) "KnowledgeBase" c fp db).db.knowledgeBase.filter
        (fun r => !valEq (kbCol c r) (.int k))
      = db.knowledgeBase.filter (fun r => !valEq (kbCol c r) (.int k)) := by
  cases fp with
  | atLinkDelete => exact ⟨rfl, rfl, rfl⟩
  | atParentDelete => exact ⟨rfl, rfl, rfl⟩
  | noFail =>
      rw [delete_kb_noFail_eq]
      refine ⟨?_, rfl, ?_⟩
      · show (db.links.filter fun l => !valEq (.int l.knowledgeBase_ID) (.int k)).filter
            (fun l => !(l.knowledgeBase_ID == k)) = _
        simp only [valEq_int_int]
        exact filter_idem _ _
      · show (db.knowledgeBase.filter fun r => !valEq (kbCol c r) (.int k)).filter
            (fun r => !valEq (kbCol c r) (.int k)) = _
        exact filter_idem _ _

/-- C10: link-table operations are framed by their key: replacing the
links of bot `b` and deleting bot `b` leave every link row of a different
bot unchanged, deleting knowledge entry `k` leaves every link row of a
different knowledge entry unchanged, and in each case the rows of the
other tables not matching the given key are untouched — under any injected
failure as well. -/
theorem c10_frame_effects (db : DB) (b k : ℤ) (ks : List ℤ) (uf : UFail)
    (c : String) (fp : FailPoint) :
    ((update_bot_knowledge_links b ks uf db).db.links.filter (fun l => !(l.bot_ID == b))
        = db.links.filter (fun l => !(l.bot_ID == b))
      ∧ (update_bot_knowledge_links b ks uf db).db.bots = db.bots
      ∧ (update_bot_knowledge_links b ks uf db).db.knowledgeBase = db.knowledgeBase)
    ∧ ((delete_record (.int b) "Bots" c fp db).db.links.filter (fun l => !(l.bot_ID == b))
        = db.links.filter (fun l => !(l.bot_ID == b))
      ∧ (delete_record (.int b) "Bots" c fp db).db.knowledgeBase = db.knowledgeBase
      ∧ (delete_record (.int b) "Bots" c fp db).db.bots.filter
          (fun r => !valEq (botCol c r) (.int b))
        = db.bots.filter (fun r => !valEq (botCol c r) (.int b)))
    ∧ ((delete_record (.int k) "KnowledgeBase" c fp db).db.links.filter
          (fun l => !(l.knowledgeBase_ID == k))
        = db.links.filter (fun l => !(l.knowledgeBase_ID == k))
      ∧ (delete_record (.int k) "KnowledgeBase" c fp db).db.bots = db.bots
      ∧ (delete_record (.int k) "KnowledgeBase" c fp db).db.knowledgeBase.filter
          (fun r => !valEq (kbCol c r) (.int k))
        = db.knowledgeBase.filter (fun r => !valEq (kbCol c r) (.int k))) :=
  ⟨replace_frame db b ks uf, delete_bot_frame db b c fp, delete_kb_frame db k c fp⟩

lemma toSQL_processVal_form (v : String) :
    toSQL (processVal (form_normalize v))
      = if v = "" ∨ v = "None" then Val.null else Val.str v := by
  by_cases h1 : v = ""
  · simp [form_normalize, processVal, pdNotna, toSQL, h1]
  · by_cases h2 : v = "None" <;>
      simp [form_normalize, processVal, pdNotna, toSQL, h1, h2]

lemma setCol_cons (k : String) (w : Val) (rest : GRow) (c : String) (v : Val) :
    setCol ((k, w) :: rest) c v
      = (if k = c then (k, v) else (k, w)) :: setCol rest c v := by
  simp only [setCol, List.map_cons]

lemma lookup_setCol (r : GRow) (c : String) (v : Val) :
    (setCol r c v).lookup c = (r.lookup c).map (fun _ => v) := by
  induction r with
  | nil => rfl
  | cons kv rest ih =>
      rcases kv with ⟨k, w⟩
      rw [setCol_cons]
      by_cases hk : k = c
      · subst hk
        rw [if_pos rfl]
        simp [List.lookup]
      · rw [if_neg hk]
        have hck : (c == k) = false := by
          simp [Ne.symm hk]
        simp [List.lookup, hck, ih]

lemma getCol_setCol_present (r : GRow) (c : String) (v : Val)
    (h : (r.lookup c).isSome) : getCol (setCol r c v) c = v := by
  rw [getCol, lookup_setCol]
  rcases hl : r.lookup c with _ | w
  · rw [hl] at h
    simp at h
  · simp

lemma applyUpdate_single (c : String) (w : PyVal) (r : GRow) :
    applyUpdate [(c, w)] r = setCol r c (toSQL (processVal w)) := rfl

lemma update_record_single (key : Val) (data : List (String × PyVal)) (kc : String)
    (r : GRow) (h : valEq (getCol r kc) key = true) :
    (update_record key data kc false [r]).1 = [applyUpdate data r] := by
  simp [update_record, h]

/-- C6 (amended): through the update flow (form handler normalization
followed by `update_record`), a supplied empty-string value — and likewise
the literal string `"None"` — is stored as SQL `NULL`; every other
supplied string is stored as given. -/
theorem c6_update_empty_string_null (r : GRow) (key : Val) (kc c : String) (v : String)
    (hmatch : valEq (getCol r kc) key = true) (hc : (r.lookup c).isSome) :
    (update_record key [(c, form_normalize v)] kc false [r]).1
      = [setCol r c (if v = "" ∨ v = "None" then Val.null else Val.str v)]
    ∧ getCol ((update_record key [(c, form_normalize v)] kc false [r]).1.headI) c
      = (if v = "" ∨ v = "None" then Val.null else Val.str v) := by
  have h1 : (update_record key [(c, form_normalize v)] kc false [r]).1
      = [setCol r c (if v = "" ∨ v = "None" then Val.null else Val.str v)] := by
    rw [update_record_single key _ kc r hmatch, applyUpdate_single, toSQL_processVal_form]
  refine ⟨h1, ?_⟩
  rw [h1]
  exact getCol_setCol_present r c _ hc

/-- C6 witness: updating the `Content` column of the matching row with
the empty string stores `NULL`, and with `"hi"` stores `"hi"`. -/
theorem c6_update_empty_string_null_witness :
    ((update_record (.int 1) [("Content", form_normalize "")] "ID" false
        [[("ID", Val.int 1), ("Content", Val.str "old")]]).1
      = [setCol [("ID", Val.int 1), ("Content", Val.str "old")] "Content"
          (if "" = "" ∨ "" = "None" then Val.null else Val.str "")])
    ∧ ((update_record (.int 1) [("Content", form_normalize "hi")] "ID" false
        [[("ID", Val.int 1), ("Content", Val.str "old")]]).1
      = [setCol [("ID", Val.int 1), ("Content", Val.str "old")] "Content"
          (if "hi" = "" ∨ "hi" = "None" then Val.null else Val.str "hi")]) :=
  ⟨(c6_update_empty_string_null [("ID", Val.int 1), ("Content", Val.str "old")]
      (.int 1) "ID" "Content" "" (by decide) (by decide)).1,
   (c6_update_empty_string_null [("ID", Val.int 1), ("Content", Val.str "old")]
      (.int 1) "ID" "Content" "hi" (by decide) (by decide)).1⟩

/-- C6 counterexample: the supplied value `"None"` — not empty, not
missing — is nevertheless stored as SQL `NULL`, refuting "all other
supplied values are stored as given". -/
theorem c6_counterexample :
    (update_record (.int 1) [("Content", form_normalize "None")] "ID" false
        [[("ID", Val.int 1), ("Content", Val.str "old")]])
      = ([[("ID", Val.int 1), ("Content", Val.null)]], .ok, true, true)
    ∧ form_normalize "None" = PyVal.pstr "None" := by
  decide

/-- C9: `update_record` normalizes more than the empty string: a supplied
`NaN`/`NA`, the literal string `"None"` (and a supplied `None`) are all
bound as SQL `NULL`, and no supplied value whatsoever is stored as the
literal string `"None"`. -/
theorem c9_update_normalizes_nan_none (key : Val) (kc c : String) (r : GRow) (w : PyVal)
    (hmatch : valEq (getCol r kc) key = true) :
    ((w = .nan ∨ w = .pstr "None" ∨ w = .pnone) →
      (update_record key [(c, w)] kc false [r]).1 = [setCol r c Val.null])
    ∧ toSQL (processVal w) ≠ Val.str "None" := by
  constructor
  · intro hw
    rw [update_record_single key _ kc r hmatch, applyUpdate_single]
    rcases hw with rfl | rfl | rfl <;> rfl
  · rcases w with _ | _ | s
    · simp [processVal, pdNotna, toSQL]
    · simp [processVal, pdNotna, toSQL]
    · by_cases hs : s = "None" <;> simp [processVal, pdNotna, toSQL, hs]

/-- C9 witness: updating the matching row with the literal string
`"None"` stores `NULL` in that column. -/
theorem c9_update_normalizes_nan_none_witness :
    (update_record (.int 1) [("Content", PyVal.pstr "None")] "ID" false
        [[("ID", Val.int 1), ("Content", Val.str "old")]]).1
      = [setCol [("ID", Val.int 1), ("Content", Val.str "old")] "Content" Val.null] :=
  (c9_update_normalizes_nan_none (.int 1) "ID" "Content"
      [("ID", Val.int 1), ("Content", Val.str "old")] (PyVal.pstr "None")
      (by decide)).1 (Or.inr (Or.inl rfl))

/-- C7 (amended): `add_record`, `update_record` and `add_bot_and_get_id`
clear the read cache before returning, so a read immediately after them
observes the written state; `delete_record`, `link_bot_to_knowledgebase`
and `update_bot_knowledge_links` never clear it, leaving a stale-cache
window for those write paths. -/
theorem c7_cache_invalidation (db : DB) (rows : TableData) (nm : String)
    (fl : Bool) (rid : Val) (data : List (String × PyVal)) (kc : String)
    (gt : List GRow) (v : Val) (t c : String) (fp : FailPoint)
    (b : ℤ) (ks : List ℤ) (uf : UFail) (s : AppState) :
    (add_record rows fl db).cacheCleared = true
    ∧ (update_record rid data kc fl gt).2.2.2 = true
    ∧ ((add_bot_and_get_id nm fl db).1).cacheCleared = true
    ∧ (delete_record v t c fp db).cacheCleared = false
    ∧ (link_bot_to_knowledgebase b ks fl db).cacheCleared = false
    ∧ (update_bot_knowledge_links b ks uf db).cacheCleared = false
    ∧ (load_data "Bots" (applyResult (add_record rows fl s.db) s)).1
        = .botsD (add_record rows fl s.db).db.bots := by
  refine ⟨?_, ?_, ?_, ?_, ?_, ?_, ?_⟩
  · cases fl <;> rfl
  · cases fl <;> rfl
  · cases fl <;> rfl
  · cases fp <;> simp [delete_record]
  · cases fl <;> rfl
  · cases uf with
    | noFail => rw [replace_noFail_eq]
    | atDelete => rfl
    | atInsert i =>
        rcases Nat.lt_or_ge i ks.length with h | h
        · rw [replace_lt_eq db b ks i h]
        · rw [replace_ge_eq db b ks i h]
  · cases fl <;> simp [add_record, applyResult, emptyCache, load_data]

/-- C7 counterexample: a read, then a successful `delete_record` of bot 1,
then another read: the second read still returns the cached pre-delete
`Bots` rows although the table is now empty — a stale-cache window right
after a write. -/
theorem c7_counterexample :
    (load_data "Bots" (applyResult
        (delete_record (.int 1) "Bots" "Bot_ID" .noFail
          ((load_data "Bots" ⟨dbEx, emptyCache⟩).2).db)
        (load_data "Bots" ⟨dbEx, emptyCache⟩).2)).1
      = .botsD [⟨1, "Aida"⟩]
    ∧ (applyResult
        (delete_record (.int 1) "Bots" "Bot_ID" .noFail
          ((load_data "Bots" ⟨dbEx, emptyCache⟩).2).db)
        (load_data "Bots" ⟨dbEx, emptyCache⟩).2).db.bots = [] := by
  decide

/-- C8 (amended): `add_bot_and_get_id` and `link_bot_to_knowledgebase`
catch store-level errors at the operation boundary, leave the committed
state unchanged, release their connection and surface a typed error.
`delete_record`, `add_record` and `update_record` also leave the committed
state unchanged on failure and release their connection (`finally`), but
their `st.error` reporting calls pass two positional arguments and
themselves raise `TypeError`, so those failures propagate as exceptions
rather than typed errors.  `update_bot_knowledge_links` has no error
handling at all: a failing delete or insert propagates the exception and
leaves its connection unreleased.  In every case no partial write is
published. -/
theorem c8_error_boundaries (db : DB) (v : Val) (t c : String) (fp : FailPoint)
    (rows : TableData) (nm : String) (fl : Bool) (rid : Val)
    (data : List (String × PyVal)) (kc : String) (gt : List GRow)
    (b : ℤ) (ks : List ℤ) (i : ℕ) :
    ((delete_record v t c fp db).connClosed = true
      ∧ (fp ≠ .noFail → (delete_record v t c fp db).db = db
          ∧ (delete_record v t c fp db).outcome = .raised))
    ∧ ((add_record rows fl db).connClosed = true
      ∧ (fl = true → (add_record rows fl db).db = db
          ∧ (add_record rows fl db).outcome = .raised))
    ∧ (((add_bot_and_get_id nm fl db).1).connClosed = true
      ∧ ((add_bot_and_get_id nm fl db).1).outcome ≠ .raised
      ∧ (fl = true → ((add_bot_and_get_id nm fl db).1).db = db
          ∧ ((add_bot_and_get_id nm fl db).1).outcome = .typedError))
    ∧ ((link_bot_to_knowledgebase b ks fl db).connClosed = true
      ∧ (link_bot_to_knowledgebase b ks fl db).outcome ≠ .raised
      ∧ (fl = true → (link_bot_to_knowledgebase b ks fl db).db = db
          ∧ (link_bot_to_knowledgebase b ks fl db).outcome = .typedError))
    ∧ ((update_record rid data kc fl gt).2.2.1 = true
      ∧ (fl = true → (update_record rid data kc fl gt).1 = gt
          ∧ (update_record rid data kc fl gt).2.1 = .raised))
    ∧ ((update_bot_knowledge_links b ks .noFail db).outcome = .ok
      ∧ (update_bot_knowledge_links b ks .noFail db).connClosed = true)
    ∧ ((update_bot_knowledge_links b ks .atDelete db).outcome = .raised
      ∧ (update_bot_knowledge_links b ks .atDelete db).connClosed = false
      ∧ (update_bot_knowledge_links b ks .atDelete db).db = db)
    ∧ (i < ks.length →
        (update_bot_knowledge_links b ks (.atInsert i) db).outcome = .raised
        ∧ (update_bot_knowledge_links b ks (.atInsert i) db).connClosed = false
        ∧ (update_bot_knowledge_links b ks (.atInsert i) db).db = db) := by
  refine ⟨⟨?_, ?_⟩, ⟨?_, ?_⟩, ⟨?_, ?_, ?_⟩, ⟨?_, ?_, ?_⟩, ⟨?_, ?_⟩,
    ?_, ⟨rfl, rfl, rfl⟩, ?_⟩
  · cases fp <;> simp [delete_record]
  · intro h
    cases fp with
    | noFail => exact absurd rfl h
    | atLinkDelete => exact ⟨rfl, rfl⟩
    | atParentDelete => exact ⟨rfl, rfl⟩
  · cases fl <;> rfl
  · intro h
    subst h
    exact ⟨rfl, rfl⟩
  · cases fl <;> rfl
  · cases fl <;> simp [add_bot_and_get_id]
  · intro h
    subst h
    exact ⟨rfl, rfl⟩
  · cases fl <;> rfl
  · cases fl <;> simp [link_bot_to_knowledgebase]
  · intro h
    subst h
    exact ⟨rfl, rfl⟩
  · cases fl <;> rfl
  · intro h
    subst h
    exact ⟨rfl, rfl⟩
  · rw [replace_noFail_eq]
    exact ⟨rfl, rfl⟩
  · intro h
    rw [replace_lt_eq db b ks i h]
    exact ⟨rfl, rfl, rfl⟩

/-- C8 witness: with an injected failure on the second insert, the
replace-links operation raises, leaves its connection open and publishes
nothing. -/
theorem c8_error_boundaries_witness :
    (update_bot_knowledge_links 1 [5, 6] (.atInsert 1) dbEx).outcome = .raised
    ∧ (update_bot_knowledge_links 1 [5, 6] (.atInsert 1) dbEx).connClosed = false
    ∧ (update_bot_knowledge_links 1 [5, 6] (.atInsert 1) dbEx).db = dbEx :=
  (c8_error_boundaries dbEx (.int 1) "Bots" "Bot_ID" .noFail (.botsD []) "x" false
      (.int 1) [] "ID" [] 1 [5, 6] 1).2.2.2.2.2.2.2 (by decide)

/-- C8 counterexample: `update_bot_knowledge_links` has no error handling,
so a failing insert is not caught at the operation boundary — the
exception propagates instead of a typed error, and the scoped connection
is not released before the operation returns. -/
theorem c8_counterexample :
    (update_bot_knowledge_links 1 [5, 6] (.atInsert 0) dbEx).outcome = .raised
    ∧ (update_bot_knowledge_links 1 [5, 6] (.atInsert 0) dbEx).connClosed = false := by
  decide

lemma pairPresent_addLink_self (db : DB) (b k : ℤ) :
    pairPresent (addLink b k db) b k = true := by
  simp [pairPresent, addLink, List.any_append]

lemma pairPresent_linkStep_self (b : ℤ) (db : DB) (k : ℤ) :
    pairPresent (linkStep b db k) b k = true := by
  by_cases h : pairPresent db b k
  · simp [linkStep, h]
  · simp only [linkStep, h, if_false, Bool.false_eq_true]
    exact pairPresent_addLink_self db b k

lemma pairPresent_linkStep_mono (b : ℤ) (db : DB) (k' b0 k0 : ℤ)
    (h : pairPresent db b0 k0 = true) :
    pairPresent (linkStep b db k') b0 k0 = true := by
  by_cases hp : pairPresent db b k'
  · simpa [linkStep, hp] using h
  · simp only [linkStep, hp, if_false, Bool.false_eq_true]
    simp only [pairPresent, addLink, List.any_append, Bool.or_eq_true]
    exact Or.inl h

lemma pairPresent_fold_mono (b : ℤ) (ks : List ℤ) (db : DB) (b0 k0 : ℤ)
    (h : pairPresent db b0 k0 = true) :
    pairPresent (ks.foldl (linkStep b) db) b0 k0 = true := by
  induction ks generalizing db with
  | nil => exact h
  | cons k1 ks ih => exact ih _ (pairPresent_linkStep_mono b db k1 b0 k0 h)

lemma pairPresent_after_fold (b : ℤ) (ks : List ℤ) (db : DB) (k : ℤ) (h : k ∈ ks) :
    pairPresent (ks.foldl (linkStep b) db) b k = true := by
  induction ks generalizing db with
  | nil => cases h
  | cons k1 ks ih =>
      rcases List.mem_cons.mp h with rfl | hk
      · exact pairPresent_fold_mono b ks _ b k (pairPresent_linkStep_self b db k)
      · exact ih (linkStep b db k1) hk

lemma fold_id_of_present (b : ℤ) (ks : List ℤ) (db : DB)
    (h : ∀ k ∈ ks, pairPresent db b k = true) :
    ks.foldl (linkStep b) db = db := by
  induction ks with
  | nil => rfl
  | cons k1 ks ih =>
      have h1 : linkStep b db k1 = db := by
        simp [linkStep, h k1 (List.mem_cons_self k1 ks)]
      rw [List.foldl_cons, h1]
      exact ih (fun k hk => h k (List.mem_cons_of_mem k1 hk))

lemma countPair_pos_iff (db : DB) (b k : ℤ) :
    pairPresent db b k = true ↔ countPair db b k ≠ 0 := by
  rw [pairPresent, countPair, List.any_eq_true]
  constructor
  · rintro ⟨l, hl, hp⟩ hlen
    rw [List.length_eq_zero] at hlen
    have : l ∈ db.links.filter (fun l => l.bot_ID == b && l.knowledgeBase_ID == k) :=
      List.mem_filter.mpr ⟨hl, hp⟩
    rw [hlen] at this
    cases this
  · intro hlen
    rcases List.exists_mem_of_length_pos (Nat.pos_of_ne_zero hlen) with ⟨l, hl⟩
    rcases List.mem_filter.mp hl with ⟨hmem, hp⟩
    exact ⟨l, hmem, hp⟩

lemma countPair_linkStep_other (b : ℤ) (db : DB) (k' k : ℤ) (hk : k' ≠ k) :
    countPair (linkStep b db k') b k = countPair db b k := by
  by_cases hp : pairPresent db b k'
  · simp [linkStep, hp]
  · have hnew : List.filter (fun l : LinkRow => l.bot_ID == b && l.knowledgeBase_ID == k)
        [⟨b, k'⟩] = [] := by
      simp [hk]
    simp only [linkStep, hp, if_false, Bool.false_eq_true, countPair, addLink,
      List.filter_append, hnew, List.append_nil]

lemma countPair_linkStep_self_le (b : ℤ) (db : DB) (k : ℤ) :
    countPair (linkStep b db k) b k ≤ max 1 (countPair db b k) := by
  by_cases hp : pairPresent db b k
  · simp only [linkStep, hp, if_true]
    exact le_max_right _ _
  · have hz : countPair db b k = 0 := by
      by_contra hnz
      exact hp ((countPair_pos_iff db b k).mpr hnz)
    have : countPair (addLink b k db) b k = countPair db b k + 1 := by
      simp [countPair, addLink, List.filter_append]
    simp [linkStep, hp, this, hz]

lemma countPair_fold_le (b : ℤ) (ks : List ℤ) (db : DB) (k : ℤ) :
    countPair (ks.foldl (linkStep b) db) b k ≤ max 1 (countPair db b k) := by
  induction ks generalizing db with
  | nil => exact le_max_right _ _
  | cons k1 ks ih =>
      rw [List.foldl_cons]
      refine le_trans (ih (linkStep b db k1)) ?_
      by_cases hk : k1 = k
      · subst hk
        have h1 := countPair_linkStep_self_le b db k1
        have : max 1 (countPair (linkStep b db k1) b k1) ≤ max 1 (countPair db b k1) := by
          exact max_le (le_max_left _ _) h1
        exact this
      · rw [countPair_linkStep_other b db k1 k hk]

lemma countPair_fold_ge (b : ℤ) (ks : List ℤ) (db : DB) (k : ℤ) (h : k ∈ ks) :
    1 ≤ countPair (ks.foldl (linkStep b) db) b k := by
  have hp := pairPresent_after_fold b ks db k h
  have := (countPair_pos_iff _ b k).mp hp
  omega

/-- C3: `link_bot_to_knowledgebase` inserts a (bot, knowledge) link only
when the pair is absent: running it twice with the same arguments changes
nothing the second time, and for a store holding at most one row for the
pair (bot, k) — in particular none — a call whose key list contains `k`
(even duplicated, as in `[k, k]`) leaves exactly one link row for that
pair. -/
theorem c3_linkIfAbsent_idempotent (db : DB) (b : ℤ) (ks : List ℤ) :
    (link_bot_to_knowledgebase b ks false
        ((link_bot_to_knowledgebase b ks false db).db)).db
      = (link_bot_to_knowledgebase b ks false db).db
    ∧ ∀ k ∈ ks, countPair db b k ≤ 1 →
        countPair ((link_bot_to_knowledgebase b ks false db).db) b k = 1 := by
  have hdb : ∀ d : DB, (link_bot_to_knowledgebase b ks false d).db
      = ks.foldl (linkStep b) d := fun d => rfl
  constructor
  · rw [hdb, hdb]
    exact fold_id_of_present b ks _ (fun k hk => pairPresent_after_fold b ks db k hk)
  · intro k hk hle
    rw [hdb]
    have h1 := countPair_fold_ge b ks db k hk
    have h2 := countPair_fold_le b ks db k
    omega

/-- C3 witness: linking bot 1 to the duplicated key list `[5, 5]` on a
store already holding the (1, 5) pair once leaves exactly one (1, 5) link
row, and rerunning the call on its own result is a no-op. -/
theorem c3_linkIfAbsent_idempotent_witness :
    countPair ((link_bot_to_knowledgebase 1 [5, 5] false dbEx).db) 1 5 = 1
    ∧ (link_bot_to_knowledgebase 1 [5, 5] false
        ((link_bot_to_knowledgebase 1 [5, 5] false dbEx).db)).db
      = (link_bot_to_knowledgebase 1 [5, 5] false dbEx).db :=
  ⟨(c3_linkIfAbsent_idempotent dbEx 1 [5, 5]).2 5 (by decide) (by decide),
   (c3_linkIfAbsent_idempotent dbEx 1 [5, 5]).1⟩

lemma noDangling_iff (db : DB) : noDangling db = true ↔
    ∀ l ∈ db.links, (∃ r ∈ db.bots, r.bot_ID = l.bot_ID)
      ∧ (∃ x ∈ db.knowledgeBase, x.id = l.knowledgeBase_ID) := by
  simp [noDangling, List.all_eq_true, List.any_eq_true]

lemma noDangling_mono (db db' : DB) (hd : noDangling db = true)
    (hl : ∀ l ∈ db'.links, l ∈ db.links)
    (hb : ∀ r ∈ db.bots, r ∈ db'.bots)
    (hk : ∀ x ∈ db.knowledgeBase, x ∈ db'.knowledgeBase) :
    noDangling db' = true := by
  rw [noDangling_iff] at hd ⊢
  intro l hmem
  rcases hd l (hl l hmem) with ⟨⟨r, hr, hrid⟩, ⟨x, hx, hxid⟩⟩
  exact ⟨⟨r, hb r hr, hrid⟩, ⟨x, hk x hx, hxid⟩⟩

lemma noDangling_del_bot (db : DB) (v : Val) (hd : noDangling db = true) :
    noDangling ⟨db.bots.filter (fun r => !valEq (.int r.bot_ID) v), db.knowledgeBase,
      db.links.filter (fun l => !valEq (.int l.bot_ID) v)⟩ = true := by
  rw [noDangling_iff] at hd ⊢
  intro l hmem
  rcases List.mem_filter.mp hmem with ⟨hl, hkeep⟩
  rcases hd l hl with ⟨⟨r, hr, hrid⟩, hkx⟩
  refine ⟨⟨r, List.mem_filter.mpr ⟨hr, ?_⟩, hrid⟩, hkx⟩
  rw [hrid]
  exact hkeep

lemma noDangling_del_kb (db : DB) (v : Val) (hd : noDangling db = true) :
    noDangling ⟨db.bots, db.knowledgeBase.filter (fun x => !valEq (.int x.id) v),
      db.links.filter (fun l => !valEq (.int l.knowledgeBase_ID) v)⟩ = true := by
  rw [noDangling_iff] at hd ⊢
  intro l hmem
  rcases List.mem_filter.mp hmem with ⟨hl, hkeep⟩
  rcases hd l hl with ⟨hbx, ⟨x, hx, hxid⟩⟩
  refine ⟨hbx, ⟨x, List.mem_filter.mpr ⟨hx, ?_⟩, hxid⟩⟩
  rw [hxid]
  exact hkeep

lemma noDangling_links_update (db : DB) (b : ℤ) (ks : List ℤ)
    (newLinks : List LinkRow) (hd : noDangling db = true)
    (hmem : ∀ l ∈ newLinks, l ∈ db.links ∨ (l.bot_ID = b ∧ l.knowledgeBase_ID ∈ ks))
    (hb : ∃ r ∈ db.bots, r.bot_ID = b)
    (hk : ∀ k ∈ ks, ∃ x ∈ db.knowledgeBase, x.id = k) :
    noDangling ⟨db.bots, db.knowledgeBase, newLinks⟩ = true := by
  rw [noDangling_iff] at hd ⊢
  intro l hmeml
  rcases hmem l hmeml with hold | ⟨hbid, hkid⟩
  · exact hd l hold
  · rcases hb with ⟨r, hr, hrid⟩
    rcases hk _ hkid with ⟨x, hx, hxid⟩
    exact ⟨⟨r, hr, by rw [hrid, hbid]⟩, ⟨x, hx, hxid⟩⟩

lemma fold_linkStep_bots (b : ℤ) (ks : List ℤ) (db : DB) :
    (ks.foldl (linkStep b) db).bots = db.bots := by
  induction ks generalizing db with
  | nil => rfl
  | cons k1 ks ih =>
      rw [List.foldl_cons, ih]
      by_cases hp : pairPresent db b k1
      · simp [linkStep, hp]
      · simp [linkStep, hp, addLink]

lemma fold_linkStep_kb (b : ℤ) (ks : List ℤ) (db : DB) :
    (ks.foldl (linkStep b) db).knowledgeBase = db.knowledgeBase := by
  induction ks generalizing db with
  | nil => rfl
  | cons k1 ks ih =>
      rw [List.foldl_cons, ih]
      by_cases hp : pairPresent db b k1
      · simp [linkStep, hp]
      · simp [linkStep, hp, addLink]

lemma fold_linkStep_links_mem (b : ℤ) (ks : List ℤ) (db : DB) :
    ∀ l ∈ (ks.foldl (linkStep b) db).links,
      l ∈ db.links ∨ (l.bot_ID = b ∧ l.knowledgeBase_ID ∈ ks) := by
  induction ks generalizing db with
  | nil => exact fun l hl => Or.inl hl
  | cons k1 ks ih =>
      intro l hl
      rw [List.foldl_cons] at hl
      rcases ih (linkStep b db k1) l hl with hstep | ⟨hbid, hkid⟩
      · by_cases hp : pairPresent db b k1
        · rw [show linkStep b db k1 = db from by simp [linkStep, hp]] at hstep
          exact Or.inl hstep
        · rw [show linkStep b db k1 = addLink b k1 db from by simp [linkStep, hp]] at hstep
          rcases List.mem_append.mp hstep with hold | hnew
          · exact Or.inl hold
          · rcases List.mem_singleton.mp hnew with rfl
            exact Or.inr ⟨rfl, List.mem_cons_self k1 ks⟩
      · exact Or.inr ⟨hbid, List.mem_cons_of_mem k1 hkid⟩

lemma safeOp_link_elim (db : DB) (b : ℤ) (ks : List ℤ)
    (hs : (db.bots.any (fun r => r.bot_ID == b)
        && ks.all (fun k => db.knowledgeBase.any (fun r => r.id == k))) = true) :
    (∃ r ∈ db.bots, r.bot_ID = b) ∧ ∀ k ∈ ks, ∃ x ∈ db.knowledgeBase, x.id = k := by
  rw [Bool.and_eq_true] at hs
  constructor
  · rcases List.any_eq_true.mp hs.1 with ⟨r, hr, hb⟩
    exact ⟨r, hr, by simpa using hb⟩
  · intro k hk
    have := List.all_eq_true.mp hs.2 k hk
    rcases List.any_eq_true.mp this with ⟨x, hx, hid⟩
    exact ⟨x, hx, by simpa using hid⟩

lemma safe_step (db : DB) (op : Op) (hd : noDangling db = true)
    (hs : safeOp db op = true) : noDangling (applyOp op db) = true := by
  cases op with
  | del v t c fp =>
      cases fp with
      | atLinkDelete => simpa [applyOp, delete_record] using hd
      | atParentDelete => simpa [applyOp, delete_record] using hd
      | noFail =>
          by_cases ht : t = "Bots"
          · subst ht
            have hc : c = "Bot_ID" := by simpa [safeOp] using hs
            subst hc
            have hbc : (fun r : BotRow => !valEq (botCol "Bot_ID" r) v)
                = fun r : BotRow => !valEq (.int r.bot_ID) v := by
              funext r
              simp [botCol]
            have h2 := noDangling_del_bot db v hd
            rw [← hbc] at h2
            simpa [applyOp, delete_bot_noFail_eq] using h2
          · by_cases ht2 : t = "KnowledgeBase"
            · subst ht2
              have hc : c = "ID" := by simpa [safeOp, ht] using hs
              subst hc
              have hkc : (fun x : KBRow => !valEq (kbCol "ID" x) v)
                  = fun x : KBRow => !valEq (.int x.id) v := by
                funext x
                simp [kbCol]
              have h2 := noDangling_del_kb db v hd
              rw [← hkc] at h2
              simpa [applyOp, delete_kb_noFail_eq] using h2
            · have happ : applyOp (.del v t c .noFail) db = deleteFrom t c v db := by
                simp [applyOp, delete_record, ht, ht2]
              rw [happ]
              by_cases ht3 : t = "BotKnowledgeLink"
              · subst ht3
                have hdf : deleteFrom "BotKnowledgeLink" c v db
                    = ⟨db.bots, db.knowledgeBase,
                        db.links.filter (fun r => !valEq (linkCol c r) v)⟩ := by
                  simp [deleteFrom]
                rw [hdf]
                exact noDangling_mono db _ hd
                  (fun l hl => (List.mem_filter.mp hl).1) (fun r hr => hr) (fun x hx => hx)
              · have hdf : deleteFrom t c v db = db := by
                  simp [deleteFrom, ht, ht2, ht3]
                rw [hdf]
                exact hd
  | linkAbsent b ks fl =>
      cases fl with
      | true => simpa [applyOp, link_bot_to_knowledgebase] using hd
      | false =>
          have h := safeOp_link_elim db b ks (by simpa [safeOp] using hs)
          show noDangling (ks.foldl (linkStep b) db) = true
          have hb := fold_linkStep_bots b ks db
          have hk := fold_linkStep_kb b ks db
          have hF : ks.foldl (linkStep b) db
              = ⟨db.bots, db.knowledgeBase, (ks.foldl (linkStep b) db).links⟩ := by
            rw [← hb, ← hk]
          rw [hF]
          exact noDangling_links_update db b ks _ hd
            (fold_linkStep_links_mem b ks db) h.1 h.2
  | replace b ks uf =>
      have h := safeOp_link_elim db b ks (by simpa [safeOp] using hs)
      have key : ∀ w : DB, w.bots = db.bots → w.knowledgeBase = db.knowledgeBase →
          w.links = db.links.filter (fun l => !(l.bot_ID == b)) ++ ks.map (fun k => ⟨b, k⟩) →
          noDangling w = true := by
        intro w hwb hwk hwl
        have hF : w = ⟨db.bots, db.knowledgeBase, w.links⟩ := by
          rw [← hwb, ← hwk]
        rw [hF]
        refine noDangling_links_update db b ks _ hd ?_ h.1 h.2
        intro l hl
        rw [hwl] at hl
        rcases List.mem_append.mp hl with hold | hnew
        · exact Or.inl (List.mem_filter.mp hold).1
        · rcases List.mem_map.mp hnew with ⟨k, hk, rfl⟩
          exact Or.inr ⟨rfl, hk⟩
      cases uf with
      | atDelete => simpa [applyOp, update_bot_knowledge_links] using hd
      | noFail =>
          have happ : applyOp (.replace b ks .noFail) db
              = (update_bot_knowledge_links b ks .noFail db).db := rfl
          rw [happ, replace_noFail_eq]
          exact key _ rfl rfl rfl
      | atInsert i =>
          have happ : applyOp (.replace b ks (.atInsert i)) db
              = (update_bot_knowledge_links b ks (.atInsert i) db).db := rfl
          rcases Nat.lt_or_ge i ks.length with hlt | hge
          · rw [happ, replace_lt_eq db b ks i hlt]
            exact hd
          · rw [happ, replace_ge_eq db b ks i hge]
            exact key _ rfl rfl rfl
  | insertRs rows fl =>
      cases fl with
      | true => simpa [applyOp, add_record] using hd
      | false =>
          cases rows with
          | botsD rs =>
              refine noDangling_mono db _ hd (fun l hl => hl) (fun r hr => ?_) (fun x hx => hx)
              show r ∈ ((add_record (.botsD rs) false db).db).bots
              simp only [add_record, if_neg Bool.false_ne_true, insertRows]
              exact List.mem_append_left rs hr
          | kbD rs =>
              refine noDangling_mono db _ hd (fun l hl => hl) (fun r hr => hr) (fun x hx => ?_)
              show x ∈ ((add_record (.kbD rs) false db).db).knowledgeBase
              simp only [add_record, if_neg Bool.false_ne_true, insertRows]
              exact List.mem_append_left rs hx
          | linksD rs => simp [safeOp] at hs
  | insertBot nm fl =>
      cases fl with
      | true => simpa [applyOp, add_bot_and_get_id] using hd
      | false =>
          refine noDangling_mono db _ hd (fun l hl => hl) (fun r hr => ?_) (fun x hx => hx)
          show r ∈ (((add_bot_and_get_id nm false db).1).db).bots
          simp only [add_bot_and_get_id, if_neg Bool.false_ne_true, insertRows]
          exact List.mem_append_left _ hr

/-- C4 (amended): starting from a store with no dangling links, any
sequence of repository and synchronizer operations preserves referential
integrity, provided each operation meets its call-site side condition
(`safeOp`): `Bots` / `KnowledgeBase` deletes are keyed by the table's
integer ID column, link creation (`link_bot_to_knowledgebase`,
`update_bot_knowledge_links`) uses a bot key present in `Bots` and
knowledge keys present in `KnowledgeBase`, and raw inserts do not target
the join table.  Failed operations (with their rollback) are covered. -/
theorem c4_no_dangling_preserved (db : DB) (ops : List Op)
    (h1 : noDangling db = true) (h2 : safeRun db ops = true) :
    noDangling (runOps db ops) = true := by
  induction ops generalizing db with
  | nil => exact h1
  | cons op ops ih =>
      rw [show safeRun db (op :: ops) = (safeOp db op && safeRun (applyOp op db) ops)
        from rfl, Bool.and_eq_true] at h2
      exact ih (applyOp op db) (safe_step db op h1 h2.1) h2.2

/-- C4 counterexample: the link synchronizer never checks that the parent
rows exist — linking bot 1 on a store whose `Bots` table is empty
succeeds and creates a dangling `BotKnowledgeLink` row. -/
theorem c4_counterexample :
    noDangling dbKBOnly = true
    ∧ (link_bot_to_knowledgebase 1 [5] false dbKBOnly).db.links = [⟨1, 5⟩]
    ∧ noDangling ((link_bot_to_knowledgebase 1 [5] false dbKBOnly).db) = false := by
  decide

/-- C4 witness: the spec §8 scenario — insert a bot, insert a knowledge
entry, link them, then delete the bot by `Bot_ID` — is a safe sequence and
ends with no dangling links. -/
theorem c4_no_dangling_preserved_witness :
    noDangling (runOps dbEmpty
      [.insertBot "Aida" false, .insertRs (.kbD [⟨5, "doc"⟩]) false,
       .linkAbsent 1 [5] false, .del (.int 1) "Bots" "Bot_ID" .noFail]) = true :=
  c4_no_dangling_preserved dbEmpty
    [.insertBot "Aida" false, .insertRs (.kbD [⟨5, "doc"⟩]) false,
     .linkAbsent 1 [5] false, .del (.int 1) "Bots" "Bot_ID" .noFail]
    (by decide) (by decide)
